import Mathlib

/-!
Shallow embedding of the dependency-resolution engine in pkg.go.

Conventions used throughout:
- Go strings are Lean Strings; the handful of string primitives the code
  uses (strings.HasPrefix, strings.Contains, strings.Split, strings.Join,
  filepath.Join) are re-implemented below over character lists so that the
  kernel can evaluate them.
- External collaborators (the native-package classifier, go/build package
  metadata, the Masterminds vcs backend, the filesystem holding manifest
  files) are modelled as world records of pure functions; the code under
  verification is translated literally against those worlds.
- Recursion over the dependency tree (which Go performs on finite heap
  trees) is made total with an explicit fuel parameter, structural on Nat;
  theorems that need the whole tree carry a depth bound hypothesis.
- Goroutine fan-out in Init joins all children before returning
  (sync.WaitGroup), so it is modelled by the sequential interleaving in
  which each spawned install runs to completion at its spawn point.
-/

/-- Character-list test that the second list is an initial segment of the
first argument order of chStarts: chStarts pre s is true when pre is an
initial segment of s read as the first parameter. -/
def chStarts : List Char → List Char → Bool
  | [], _ => true
  | _ :: _, [] => false
  | a :: as, b :: bs => a == b && chStarts as bs

/-- Model of Go strings.HasPrefix(s, pre): s starts with pre. -/
def goStartsWith (s pre : String) : Bool := chStarts pre.data s.data

/-- Helper for goContains: does sub occur as a contiguous segment of s. -/
def chContains : List Char → List Char → Bool
  | s, sub =>
    match s with
    | [] => sub.isEmpty
    | _ :: rest => chStarts sub s || chContains rest sub

/-- Model of Go strings.Contains(s, sub). -/
def goContains (s sub : String) : Bool := chContains s.data sub.data

/-- Split a character list on a separator character, keeping empty pieces,
matching Go strings.Split for a one-character separator. -/
def chSplit (c : Char) : List Char → List (List Char)
  | [] => [[]]
  | a :: rest =>
    let r := chSplit c rest
    if a == c then [] :: r
    else match r with
      | [] => [[a]]
      | h :: t => (a :: h) :: t

/-- Model of Go strings.Split(s, sep) for the one-character separators
used in pkg.go ("/" and "."). -/
def goSplit (s sep : String) : List String :=
  match sep.data with
  | [c] => (chSplit c s.data).map (fun l => String.mk l)
  | _ => [s]

/-- Model of Go strings.Join(parts, sep). -/
def goJoin (sep : String) : List String → String
  | [] => ""
  | [s] => s
  | s :: rest => s ++ sep ++ goJoin sep rest

/-- Model of Go filepath.Join on two components. Path cleaning is omitted;
all paths appearing in the development are already clean. Note that
filepath.Join(a, "") is a, which matters for an uninitialized manifest
file name. -/
def pathJoin (a b : String) : String :=
  if a = "" then b else if b = "" then a else a ++ "/" ++ b

/-- World record for resolveImportsRecursive (pkg.go lines 96-133).
isNative is the external native.IsNative classifier; vendoring is the
global vendoring flag (declared outside pkg.go, spec section 6 lists it
among the read-only configuration inputs); metaImports i is the import
list of build.Import(i, cwd, 0), none when that call fails; repoName is
the repository-wide helper (declared outside pkg.go) that the spec
describes as reducing an import path to its hosting base module name — it
is kept abstract here and every general theorem holds for any
instantiation. -/
structure RiWorld where
  isNative : String → Bool
  vendoring : Bool
  metaImports : String → Option (List String)
  repoName : String → String

/-- One pass of the loop body of resolveImportsRecursive over the import
list (pkg.go lines 98-120), with the recursive descent into a
successfully imported package abstracted as the recur argument. Order of
appends matches the source: recursion results first, then the base name,
then the rest of the loop. -/
def riStepList (w : RiWorld) (recur : String → List String → List String) (path : String) : List String → List String
  | [] => []
  | i :: rest =>
    (if w.isNative i then []
     else if !w.vendoring || goContains i "vendor" then []
     else
       (match w.metaImports i with
        | some imps => recur i imps
        | none => [])
       ++ (let name := w.repoName i
           if name = path then [] else [name]))
    ++ riStepList w recur path rest

/-- Accumulation phase of resolveImportsRecursive: the list r built by the
loop in pkg.go lines 97-120. fuel bounds the recursion depth into
subpackage imports; Go import graphs are acyclic, so any fuel at least the
graph depth is exact, and every theorem below holds for every fuel. -/
def riCollect (w : RiWorld) : Nat → String → List String → List String
  | 0, path, imports => riStepList w (fun _ _ => []) path imports
  | f + 1, path, imports => riStepList w (fun i imps => riCollect w f i imps) path imports

/-- Deduplication loop of pkg.go lines 122-130: keep the first occurrence
of each string, the seen accumulator playing the role of the map m. -/
def dedupAux : List String → List String → List String
  | _, [] => []
  | seen, i :: rest =>
    if seen.contains i then dedupAux seen rest
    else i :: dedupAux (i :: seen) rest

/-- Model of resolveImportsRecursive (pkg.go lines 96-133): collect,
deduplicate keeping first occurrences, then sort ascending. Go uses
sort.Strings; on a duplicate-free list every correct comparison sort
produces the same (unique) sorted enumeration, modelled with insertion
sort over the lexicographic order on String. -/
def resolveImportsRecursive (w : RiWorld) (fuel : Nat) (path : String) (imports : List String) : List String :=
  List.insertionSort (· ≤ ·) (dedupAux [] (riCollect w fuel path imports))

/-- Persisted and transient scalar fields of a Pkg (pkg.go lines 30-47).
The parent pointer is reduced to the one observation the code makes of it,
parent == nil, recorded as hasParent; meta, repo and installPath are
carried by the worlds instead. -/
structure PkgF where
  name : String := ""
  version : String := ""
  reference : String := ""
  url : String := ""
  hasManifest : Bool := false
  manifestFile : String := ""
  installed : Bool := false
  path : String := ""
  hasParent : Bool := false
deriving DecidableEq

/-- A Pkg node: scalar fields plus the owned ordered Dependencies list. -/
inductive Pkg where
  | mk (f : PkgF) (dependencies : List Pkg)

/-- Scalar fields of a node. -/
def Pkg.f : Pkg → PkgF
  | .mk f _ => f

/-- Dependencies list of a node. -/
def Pkg.dependencies : Pkg → List Pkg
  | .mk _ d => d

/-- Replace the scalar fields, keeping the dependencies. -/
def Pkg.setF (p : Pkg) (x : PkgF) : Pkg := .mk x p.dependencies

/-- Model of NewPkg (pkg.go lines 23-27). -/
def NewPkg (name : String) : Pkg := Pkg.mk { name := name } []

/-- Serialized manifest document: the fields pkg, ver, ref, url, deps of
the fixed-name manifest file (spec section 6). The text codec is opaque
per the spec, so the file stores the structured document directly; a
field equal to its zero value ("" or []) is exactly an absent field,
which is what yaml omitempty produces on the write side. -/
inductive MPkg where
  | mk (pkg ver ref url : String) (deps : List MPkg)

/-- Field pkg of a document. -/
def MPkg.pkg : MPkg → String
  | .mk v _ _ _ _ => v

/-- Field ver of a document. -/
def MPkg.ver : MPkg → String
  | .mk _ v _ _ _ => v

/-- Field ref of a document. -/
def MPkg.ref : MPkg → String
  | .mk _ _ v _ _ => v

/-- Field url of a document. -/
def MPkg.url : MPkg → String
  | .mk _ _ _ v _ => v

/-- Field deps of a document. -/
def MPkg.deps : MPkg → List MPkg
  | .mk _ _ _ _ d => d

/-- Model of yaml.Marshal on a Pkg, including the MarshalYAML hook of
pkg.go lines 406-412: a node that has a manifest of its own and has a
parent is serialized with its dependencies omitted; otherwise the
dependency list is serialized recursively through the same hook. fuel
bounds the tree depth. -/
def Pkg.marshal : Nat → Pkg → MPkg
  | 0, p => MPkg.mk p.f.name p.f.version p.f.reference p.f.url []
  | n + 1, p =>
    MPkg.mk p.f.name p.f.version p.f.reference p.f.url
      (if p.f.hasManifest && p.f.hasParent then [] else p.dependencies.map (Pkg.marshal n))

/-- Projection of a node subtree to its persisted fields, with no
pruning: the name/constraint/reference/URL view of the tree. Used to
state what a manifest round trip does and does not reproduce. -/
def Pkg.dataTree : Nat → Pkg → MPkg
  | 0, p => MPkg.mk p.f.name p.f.version p.f.reference p.f.url []
  | n + 1, p =>
    MPkg.mk p.f.name p.f.version p.f.reference p.f.url (p.dependencies.map (Pkg.dataTree n))

/-- Model of yaml.Unmarshal creating a fresh *Pkg for a deps list entry:
persisted fields are taken from the document (zero when absent) and every
transient field starts at its zero value. -/
def MPkg.toPkg : Nat → MPkg → Pkg
  | 0, d => Pkg.mk { name := d.pkg, version := d.ver, reference := d.ref, url := d.url } []
  | n + 1, d =>
    Pkg.mk { name := d.pkg, version := d.ver, reference := d.ref, url := d.url }
      (d.deps.map (MPkg.toPkg n))

/-- Number of nodes of a document tree, used to separate trees. -/
def MPkg.nodes : Nat → MPkg → Nat
  | 0, _ => 1
  | n + 1, d => 1 + (d.deps.map (MPkg.nodes n)).sum

/-- True when the node tree has depth strictly below the fuel, so that
every fueled tree function below is exact on it. -/
def Pkg.depthLe : Nat → Pkg → Bool
  | 0, _ => false
  | n + 1, p => p.dependencies.all (Pkg.depthLe n)

/-- True when no node of the tree has its hasManifest flag set. -/
def Pkg.noOwned : Nat → Pkg → Bool
  | 0, p => !p.f.hasManifest
  | n + 1, p => !p.f.hasManifest && p.dependencies.all (Pkg.noOwned n)

/-- Set hasParent on a node and, recursively, on all nodes below it. -/
def Pkg.patchNode : Nat → Pkg → Pkg
  | 0, p => p
  | n + 1, p => Pkg.mk { p.f with hasParent := true } (p.dependencies.map (Pkg.patchNode n))

/-- Model of updateDepsParents (pkg.go lines 196-203): every direct
dependency gets its parent link set, recursively; the node itself is
untouched. -/
def Pkg.updateDepsParents (fuel : Nat) (p : Pkg) : Pkg :=
  Pkg.mk p.f (p.dependencies.map (Pkg.patchNode fuel))

/-- Model of yaml.Unmarshal(data, p) into an existing node (pkg.go line
185): a field present in the document (nonzero under omitempty) replaces
the node's field, an absent field leaves the node's current value; a
present deps list replaces the list wholesale with freshly built nodes. -/
def Pkg.unmarshalMerge (fuel : Nat) (p : Pkg) (d : MPkg) : Pkg :=
  Pkg.mk
    { p.f with
      name := if d.pkg = "" then p.f.name else d.pkg
      version := if d.ver = "" then p.f.version else d.ver
      reference := if d.ref = "" then p.f.reference else d.ref
      url := if d.url = "" then p.f.url else d.url }
    (match d.deps with
     | [] => p.dependencies
     | _ => d.deps.map (MPkg.toPkg fuel))

/-- Filesystem world for the Manifest Store: readFile maps a full path to
the manifest document stored there, none when reading fails. -/
structure MWorld where
  readFile : String → Option MPkg

/-- Effect of ioutil.WriteFile on the filesystem world. -/
def MWorld.write (mw : MWorld) (key : String) (doc : MPkg) : MWorld :=
  ⟨fun s => if s = key then some doc else mw.readFile s⟩

/-- Error values the translated functions can return. -/
inductive GoErr where
  | noRepo (name : String)
  | fetchFailed
  | updateFailed
  | versionFailed
  | readFailed
deriving DecidableEq

/-- Model of LoadManifest (pkg.go lines 175-193): clear hasManifest,
default the manifest file name to vgo.yaml, read the file at the joined
path (returning the failure), merge the document into the node, set
hasManifest and patch parent links below. -/
def Pkg.loadManifest (fuel : Nat) (mw : MWorld) (p : Pkg) : Pkg × Option GoErr :=
  let p1 := p.setF { p.f with hasManifest := false }
  let p1 := if p1.f.manifestFile = "" then p1.setF { p1.f with manifestFile := "vgo.yaml" } else p1
  match mw.readFile (pathJoin p1.f.path p1.f.manifestFile) with
  | none => (p1, some GoErr.readFailed)
  | some d =>
    let p2 := p1.unmarshalMerge fuel d
    let p2 := p2.setF { p2.f with hasManifest := true }
    (p2.updateDepsParents fuel, none)

/-- Model of SaveManifest (pkg.go lines 219-229): marshal the node
(through the MarshalYAML hook) and write it at the joined path. The write
itself is modelled as succeeding; a write failure is propagated unchanged
by the source and decides no claim. -/
def Pkg.saveManifest (fuel : Nat) (mw : MWorld) (p : Pkg) : MWorld × Option GoErr :=
  (mw.write (pathJoin p.f.path p.f.manifestFile) (p.marshal fuel), none)

/-- Behaviour of a resolved version-control backend (the Masterminds vcs
Repo interface, an external collaborator per spec section 6), as the
answers it gives during one Install/Checkout pass: existsLocal is
CheckLocal() before any fetch; dirty is the IsDirty() answer; fetchOk is
whether Get() succeeds (after which CheckLocal() is true); isRefB is the
IsReference answer on an existing checkout; updateOk is whether
UpdateVersion(v) succeeds; versionRef is the Version() answer on an
existing local copy; versionMissing is the string Version() returns
alongside its error when no local copy exists (the Go implementation
returns ""), kept as a field so no behaviour is assumed. -/
structure Repo where
  existsLocal : Bool
  dirty : Bool
  lpath : String
  fetchOk : Bool
  isRefB : String → Bool
  updateOk : String → Bool
  versionRef : String
  versionMissing : String

/-- CheckLocal(). -/
def Repo.checkLocal (r : Repo) : Bool := r.existsLocal

/-- LocalPath(). -/
def Repo.localPath (r : Repo) : String := r.lpath

/-- Get(): on success the local copy exists afterwards. Returns the
updated backend and the success flag. -/
def Repo.get (r : Repo) : Repo × Bool :=
  if r.fetchOk then ({ r with existsLocal := true }, true) else (r, false)

/-- IsDirty(): a backend whose commands run in a nonexistent working copy
reports it as not dirty. -/
def Repo.isDirty (r : Repo) : Bool := r.existsLocal && r.dirty

/-- IsReference(v): false when there is no local copy to inspect. -/
def Repo.isReference (r : Repo) (v : String) : Bool := r.existsLocal && r.isRefB v

/-- UpdateVersion(v): success flag; the observable backend fields are
unchanged by a working-copy switch. -/
def Repo.updateVersion (r : Repo) (v : String) : Bool := r.updateOk v

/-- Version(): the returned string and an ok flag (false standing for a
non-nil error); Go assigns the string component to p.Reference either
way. -/
def Repo.version (r : Repo) : String × Bool :=
  if r.existsLocal then (r.versionRef, true) else (r.versionMissing, false)

/-- Observable actions of one Install/Checkout pass: log lines and backend
instructions, in program order. -/
inductive Ev where
  | logInstalling
  | fetch
  | fetchFailed
  | warnDirty
  | logOK
  | updateRef (v : String)
  | warnUpdateFailed
  | parentInit
deriving DecidableEq

/-- True for the event recording a repo.Get() call. -/
def Ev.isFetch : Ev → Bool
  | .fetch => true
  | _ => false

/-- True for the event recording a repo.UpdateVersion call. -/
def Ev.isUpdate : Ev → Bool
  | .updateRef _ => true
  | _ => false

/-- Model of Checkout (pkg.go lines 290-330) given the backend resolved by
VCS(). Mirror of the source, line by line: return nil for a parentless
node; if IsDirty, log the skip warning (the source then falls through —
there is no return); compute the desired version (Reference if nonempty,
else Version); set installed from CheckLocal; if installed and the
version is already a reference, log OK and return nil; if installed and
UpdateVersion fails, log and return the error; otherwise overwrite
Reference and path from Version() and LocalPath(), run LoadManifest
(result discarded), and when no manifest was found record the
parent-re-Init (spec 4.4 re-derivation fallback; it mutates the parent,
not this node) as an event; return the Version() error. -/
def Pkg.checkout (fuel : Nat) (mw : MWorld) (p : Pkg) (r : Repo) : Pkg × Option GoErr × List Ev :=
  if p.f.hasParent = false then (p, none, [])
  else
    let evDirty : List Ev := if r.isDirty then [Ev.warnDirty] else []
    let version : String := if p.f.reference ≠ "" then p.f.reference else p.f.version
    let p1 := p.setF { p.f with installed := r.checkLocal }
    if p1.f.installed && r.isReference version then (p1, none, evDirty ++ [Ev.logOK])
    else if p1.f.installed && !(r.updateVersion version) then
      (p1, some GoErr.updateFailed, evDirty ++ [Ev.updateRef version, Ev.warnUpdateFailed])
    else
      let evUpd : List Ev := if p1.f.installed then [Ev.updateRef version] else []
      let vres := r.version
      let p2 := p1.setF { p1.f with reference := vres.1, path := r.localPath }
      let verr : Option GoErr := if vres.2 then none else some GoErr.versionFailed
      let p3 := (p2.loadManifest fuel mw).1
      let evInit : List Ev := if p3.f.hasManifest then [] else [Ev.parentInit]
      (p3, verr, evDirty ++ evUpd ++ evInit)

/-- Model of Install (pkg.go lines 232-254) given the VCS() resolution
result (none when no backend could be constructed). Mirror of the source:
return nil for a parentless node; error naming the node when the backend
is nil; set installed from CheckLocal and path from LocalPath; when not
installed, log and Get(), keeping Get's error; always run Checkout on the
updated node, discarding its result; return the kept error. -/
def Pkg.install (fuel : Nat) (mw : MWorld) (p : Pkg) (ro : Option Repo) : Pkg × Option GoErr × List Ev :=
  if p.f.hasParent = false then (p, none, [])
  else
    match ro with
    | none => (p, some (GoErr.noRepo p.f.name), [])
    | some r =>
      let p1 := p.setF { p.f with installed := r.checkLocal, path := r.localPath }
      let fe : Repo × Option GoErr × List Ev :=
        if p1.f.installed then (r, none, [])
        else if (r.get).2 then ((r.get).1, none, [Ev.logInstalling, Ev.fetch])
        else ((r.get).1, some GoErr.fetchFailed, [Ev.logInstalling, Ev.fetch, Ev.fetchFailed])
      let co := p1.checkout fuel mw fe.1
      (co.1, fe.2.1, fe.2.2 ++ co.2.2)

/-- Model of Find (pkg.go lines 206-216): search the node's direct
dependencies by name, then each ancestor's direct dependencies walking
up; ctx is the ancestor chain, nearest first. -/
def Pkg.find (ctx : List Pkg) (p : Pkg) (name : String) : Option Pkg :=
  match p.dependencies.find? (fun d => d.f.name == name) with
  | some d => some d
  | none =>
    match ctx with
    | [] => none
    | a :: rest => Pkg.find rest a name

/-- The build.Package metadata Init receives: directory, import path and
direct import list. -/
structure BuildMeta where
  dir : String := ""
  importPath : String := ""
  imports : List String := []

/-- Worlds needed by Init: the import-resolution world, the manifest
filesystem, the VCS resolution map from a node name to its backend (the
composition of RepoType/RepoURL/NewXxxRepo for that name), and the
gosrcpath configuration value used by IsInGoPath. -/
structure InitWorld where
  ri : RiWorld
  mw : MWorld
  vcs : String → Option Repo
  gosrcpath : String := ""

/-- Loop body of Init (pkg.go lines 145-169) on one resolved import name:
reapply repoName; skip names extending the node's own name (the
subpackage filter); reuse a node found by Find; otherwise create a child
with its parent link set, install it, and append it. The accumulator
carries the node being initialized and the list of names created so far.
The spawned goroutine is run to completion at its spawn point, a valid
interleaving since Init joins all of them before returning. -/
def initFold (iw : InitWorld) (fuel : Nat) (acc : Pkg × List String) (i : String) : Pkg × List String :=
  if goStartsWith (iw.ri.repoName i) acc.1.f.name then acc
  else
    match Pkg.find [] acc.1 (iw.ri.repoName i) with
    | some _ => acc
    | none =>
      (Pkg.mk acc.1.f
        (acc.1.dependencies ++
          [(Pkg.install fuel iw.mw (Pkg.mk { name := iw.ri.repoName i, hasParent := true } [])
              (iw.vcs (iw.ri.repoName i))).1]),
       acc.2 ++ [iw.ri.repoName i])

/-- First phase of Init (pkg.go lines 137-142): record the metadata
directory as the node's path and, when it lies inside gosrcpath (the
IsInGoPath test, which for a parentless node is a prefix test on that
path), canonicalize the node's name from the metadata import path. -/
def Pkg.initRename (iw : InitWorld) (p : Pkg) (meta : BuildMeta) : Pkg :=
  if goStartsWith meta.dir iw.gosrcpath then
    p.setF { p.f with name := iw.ri.repoName meta.importPath, path := meta.dir }
  else p.setF { p.f with path := meta.dir }

/-- Model of Init (pkg.go lines 136-172) as invoked on the root node (the
node with no parent, so Find has no ancestor chain): rename, resolve the
recursive import set, and fold the loop body over it starting from an
empty created list. Returns the initialized node and the list of names
for which children were created. -/
def Pkg.rootInit (iw : InitWorld) (fuel : Nat) (p : Pkg) (meta : BuildMeta) : Pkg × List String :=
  (resolveImportsRecursive iw.ri fuel (p.initRename iw meta).f.name meta.imports).foldl
    (initFold iw fuel) (p.initRename iw meta, [])

/-- The graph-shape invariant claimed for the builder, as a decidable
check over a tree: no node's name occurs among its ancestors' names, and
no node's dependency has a name equal to, or a path extension of, the
node's own name. anc is the ancestor name chain. -/
def Pkg.c4ok : Nat → List String → Pkg → Bool
  | 0, _, _ => true
  | n + 1, anc, p =>
    !(anc.contains p.f.name) &&
    p.dependencies.all (fun d => !(goStartsWith d.f.name p.f.name)) &&
    p.dependencies.all (fun d => Pkg.c4ok n (p.f.name :: anc) d)

/-- World for RepoURL (pkg.go lines 358-382): onDiskRemote is the Remote()
of the repo repoFromPath finds at the node's install path or gopath
location, none when no checkout exists on disk there. -/
structure UrlWorld where
  onDiskRemote : Option String

/-- Literal translation of the body of RepoURL (pkg.go lines 358-382),
operating — as the Go value receiver does — on a local copy of the node.
Returns the url together with the final state of that receiver copy: the
gopkg.in branch assigns the trailing version suffix of the final path
segment to the copy's version field before returning. Because the
receiver is by value, Go discards the copy when the method returns; the
string is the only thing the caller receives (see Pkg.repoURL). -/
def Pkg.repoURLBody (w : UrlWorld) (p : Pkg) : String × Pkg :=
  if p.f.url ≠ "" then (p.f.url, p)
  else
    match w.onDiskRemote with
    | some remote => (remote, p)
    | none =>
      let parts := goSplit p.f.name "/"
      match parts.headD "" with
      | "github.com" => ("git@github.com:" ++ goJoin "/" ((parts.drop 1).take 2) ++ ".git", p)
      | "golang.org" => ("git@github.com:golang/" ++ parts.getD 2 "" ++ ".git", p)
      | "gopkg.in" =>
        let nameParts := goSplit (parts.getD 2 "") "."
        let name := goJoin "." nameParts.dropLast
        let p2 := p.setF { p.f with version := nameParts.getLastD "" }
        ("git@github.com:" ++ parts.getD 1 "" ++ "/" ++ name ++ ".git", p2)
      | _ => ("", p)

/-- RepoURL as its callers observe it: the method has a value receiver and
returns only the string, so the caller's node is unchanged by the call. -/
def Pkg.repoURL (w : UrlWorld) (p : Pkg) : String := (p.repoURLBody w).1

/-- Filesystem world with no readable manifest anywhere. -/
def mwNone : MWorld := ⟨fun _ => none⟩

/-- Import-resolution world with vendoring disabled, for the C6 witness. -/
def wVendOff : RiWorld :=
  { isNative := fun _ => false
    vendoring := false
    metaImports := fun _ => some ["q"]
    repoName := fun s => s }

/-- Dirty non-root node for evaluating Checkout (claim C1). -/
def pDirty : Pkg := Pkg.mk { name := "github.com/u/d", version := "v1", hasParent := true } []

/-- Backend for pDirty: local copy exists and is dirty, the constraint is
not yet a reference, and an update would succeed yielding deadbeef. -/
def rDirty : Repo :=
  { existsLocal := true
    dirty := true
    lpath := "/deps/d"
    fetchOk := true
    isRefB := fun _ => false
    updateOk := fun _ => true
    versionRef := "deadbeef"
    versionMissing := "" }

/-- gopkg.in-style node with no URL override (claim C2). -/
def pGopkg : Pkg := Pkg.mk { name := "gopkg.in/u/pkg.v3" } []

/-- RepoURL world with no checkout on disk (claim C2). -/
def uwNone : UrlWorld := ⟨none⟩

/-- Non-root node with a pinned reference, for the C3 counterexample. -/
def pPinned : Pkg := Pkg.mk { name := "github.com/u/z", reference := "abc", hasParent := true } []

/-- Backend whose initial fetch fails and whose version query on the
missing copy returns the empty string with an error, as the Go backends
do. -/
def rFetchFail : Repo :=
  { existsLocal := false
    dirty := false
    lpath := "/deps/z"
    fetchOk := false
    isRefB := fun _ => false
    updateOk := fun _ => false
    versionRef := ""
    versionMissing := "" }

/-- Fresh non-root node for the C3 witness. -/
def pFresh : Pkg := Pkg.mk { name := "github.com/u/z", hasParent := true } []

/-- Manifest document of the child in the builder scenario: it names
itself and declares one dependency that is a subpackage of itself. -/
def docSub : MPkg :=
  MPkg.mk "github.com/u/c" "" "" "" [MPkg.mk "github.com/u/c/sub" "" "" "" []]

/-- Filesystem holding docSub at the child's checkout location. -/
def mwSub : MWorld := ⟨fun s => if s = "/deps/c/vgo.yaml" then some docSub else none⟩

/-- Backend for the builder scenario's child: not yet present locally,
fetch succeeds, the empty constraint is not a reference, updating to it
succeeds, and the resolved reference is abc. -/
def rBuild : Repo :=
  { existsLocal := false
    dirty := false
    lpath := "/deps/c"
    fetchOk := true
    isRefB := fun _ => false
    updateOk := fun _ => true
    versionRef := "abc"
    versionMissing := "" }

/-- Init world for the builder scenario: nothing is native, vendoring is
enabled (otherwise resolution returns nothing), no import is installed
yet, repoName is the identity (exact on the hosting-base names used
here), every name resolves to rBuild, and the workspace is outside
gosrcpath. -/
def iwBuild : InitWorld :=
  { ri :=
      { isNative := fun _ => false
        vendoring := true
        metaImports := fun _ => none
        repoName := fun s => s }
    mw := mwSub
    vcs := fun _ => some rBuild
    gosrcpath := "/go/src" }

/-- Root node of the builder scenario. -/
def rootBuild : Pkg := Pkg.mk { name := "root" } []

/-- Metadata of the root workspace: one direct import. -/
def metaBuild : BuildMeta :=
  { dir := "/work/root", importPath := "root", imports := ["github.com/u/c"] }

/-- Round-trip witness node: a root with an initialized manifest file name
and a small dependency subtree none of whose nodes owns a manifest. -/
def pRound : Pkg :=
  Pkg.mk { name := "m", version := "~1.0.0", reference := "r0", url := "u0",
           manifestFile := "vgo.yaml", path := "/m" }
    [Pkg.mk { name := "a", version := "1.*" } [Pkg.mk { name := "b" } []],
     Pkg.mk { name := "c2" } []]

/-- Round-trip counterexample node: a node without a manifest of its own
whose child owns a manifest (and has a child of its own, which the
serialization hook prunes from the file). -/
def pLost : Pkg :=
  Pkg.mk { name := "m", manifestFile := "vgo.yaml", path := "/m" }
    [Pkg.mk { name := "c", hasManifest := true, hasParent := true }
      [Pkg.mk { name := "d", hasParent := true } []]]

/-- Already-installed clean node for the C8 witness. -/
def pSat : Pkg :=
  Pkg.mk { name := "github.com/u/s", version := "v2", reference := "tag2", hasParent := true } []

/-- Backend for pSat: present, clean, and every reference query answers
true, so the pinned reference tag2 already satisfies the target. -/
def rSat : Repo :=
  { existsLocal := true
    dirty := false
    lpath := "/deps/s"
    fetchOk := true
    isRefB := fun _ => true
    updateOk := fun _ => true
    versionRef := "tag2"
    versionMissing := "" }

/-- Root node (no parent) for the C9 witness. -/
def pRoot : Pkg := Pkg.mk { name := "app" } []

/-- Node for the C10 witness: installed, but its checkout will fail. -/
def pUpd : Pkg :=
  Pkg.mk { name := "github.com/u/w", version := "v9", hasParent := true } []

/-- Backend for pUpd: present and clean, no fetch needed, but the target
is not a reference and UpdateVersion fails, so Checkout returns an error
that Install must not surface. -/
def rUpdFail : Repo :=
  { existsLocal := true
    dirty := false
    lpath := "/deps/w"
    fetchOk := true
    isRefB := fun _ => false
    updateOk := fun _ => false
    versionRef := "zz"
    versionMissing := "" }

/-- Conclusion of the amended claim C3, for a non-root node whose backend
resolved, whose fetch fails, and with no manifest readable at the
checkout path: the failure is logged, the node stays unmarked-installed,
no backend update is instructed, name/constraint/URL/dependencies are
unchanged — but the pinned reference is overwritten with the failed
version query's string result (empty for the Go backends), the manifest
flag ends false, and the parent re-Init fallback still fires. -/
def C3Spec (fuel : Nat) (mw : MWorld) (p : Pkg) (r : Repo) : Prop :=
  ((Pkg.install fuel mw p (some r)).2.2).contains Ev.fetchFailed = true ∧
  (Pkg.install fuel mw p (some r)).1.f.installed = false ∧
  ((Pkg.install fuel mw p (some r)).2.2).all (fun e => !e.isUpdate) = true ∧
  (Pkg.install fuel mw p (some r)).1.f.name = p.f.name ∧
  (Pkg.install fuel mw p (some r)).1.f.version = p.f.version ∧
  (Pkg.install fuel mw p (some r)).1.f.url = p.f.url ∧
  (Pkg.install fuel mw p (some r)).1.dependencies = p.dependencies ∧
  (Pkg.install fuel mw p (some r)).1.f.reference = r.versionMissing ∧
  (Pkg.install fuel mw p (some r)).1.f.hasManifest = false ∧
  ((Pkg.install fuel mw p (some r)).2.2).contains Ev.parentInit = true

/-- Conclusion of the amended claim C5 for a node whose manifest file name
is initialized and whose tree depth is within fuel: save-then-load
succeeds and reproduces name, constraint, reference and URL exactly; a
manifest-owning non-root node is serialized with empty deps; and when no
node of the tree owns a manifest, the persisted-field view of the whole
dependency subtree is reproduced. -/
def C5Spec (n : Nat) (mw : MWorld) (p : Pkg) : Prop :=
  (p.loadManifest n (p.saveManifest n mw).1).2 = none ∧
  (p.loadManifest n (p.saveManifest n mw).1).1.f.name = p.f.name ∧
  (p.loadManifest n (p.saveManifest n mw).1).1.f.version = p.f.version ∧
  (p.loadManifest n (p.saveManifest n mw).1).1.f.reference = p.f.reference ∧
  (p.loadManifest n (p.saveManifest n mw).1).1.f.url = p.f.url ∧
  (p.f.hasManifest = true → p.f.hasParent = true → (p.marshal n).deps = []) ∧
  (Pkg.noOwned n p = true →
    (p.loadManifest n (p.saveManifest n mw).1).1.dependencies.map (Pkg.dataTree n)
      = p.dependencies.map (Pkg.dataTree n))

/-- Conclusion of claim C8: re-running Install on an already-installed,
clean, already-satisfied node performs no fetch and no backend update and
leaves the pinned reference unchanged. -/
def C8Spec (fuel : Nat) (mw : MWorld) (p : Pkg) (r : Repo) : Prop :=
  ((Pkg.install fuel mw p (some r)).2.2).all (fun e => !e.isFetch && !e.isUpdate) = true ∧
  (Pkg.install fuel mw p (some r)).1.f.reference = p.f.reference

@[simp] theorem Pkg.f_mk (x : PkgF) (d : List Pkg) : (Pkg.mk x d).f = x := rfl

@[simp] theorem Pkg.deps_mk (x : PkgF) (d : List Pkg) : (Pkg.mk x d).dependencies = d := rfl

@[simp] theorem Pkg.f_setF (p : Pkg) (x : PkgF) : (p.setF x).f = x := rfl

@[simp] theorem Pkg.deps_setF (p : Pkg) (x : PkgF) : (p.setF x).dependencies = p.dependencies := rfl

/-- With vendoring disabled every iteration of the import loop takes the
skip branch, so the accumulation produces nothing. -/
theorem riStepList_vendoring_off (w : RiWorld) (recur : String → List String → List String)
    (path : String) (h : w.vendoring = false) :
    ∀ imports, riStepList w recur path imports = [] := by
  intro imports
  induction imports with
  | nil => rfl
  | cons i rest ih => simp [riStepList, h, ih]

/-- C6: when the vendoring flag is disabled, resolveImportsRecursive skips
every import during filtering and never descends into an import's own
imports, so its returned list holds only directly-filtered names —
indeed, it is empty, for every depth bound, input name and import list. -/
theorem c6_vendoring_gate (w : RiWorld) (fuel : Nat) (path : String) (imports : List String)
    (h : w.vendoring = false) :
    resolveImportsRecursive w fuel path imports = [] := by
  cases fuel with
  | zero =>
    simp [resolveImportsRecursive, riCollect, riStepList_vendoring_off w _ path h,
      dedupAux, List.insertionSort]
  | succ f =>
    simp [resolveImportsRecursive, riCollect, riStepList_vendoring_off w _ path h,
      dedupAux, List.insertionSort]

/-- Witness for c6_vendoring_gate at a concrete world whose imports would
otherwise recurse and survive filtering. -/
theorem c6_witness : resolveImportsRecursive wVendOff 2 "m" ["a", "b"] = [] :=
  c6_vendoring_gate wVendOff 2 "m" ["a", "b"] rfl

/-- Elements produced by the deduplication loop avoid the seen accumulator
and are pairwise distinct. -/
theorem dedupAux_fresh_nodup :
    ∀ (l seen : List String),
      (∀ x ∈ dedupAux seen l, x ∉ seen) ∧ (dedupAux seen l).Nodup := by
  intro l
  induction l with
  | nil => intro seen; simp [dedupAux]
  | cons i rest ih =>
    intro seen
    cases hc : seen.contains i with
    | true =>
      rw [dedupAux, hc]
      simpa using ih seen
    | false =>
      have hi : i ∉ seen := by simpa using hc
      have key := ih (i :: seen)
      rw [dedupAux, hc]
      simp only [Bool.false_eq_true, if_false]
      constructor
      · intro x hx
        rcases List.mem_cons.mp hx with hx | hx
        · exact hx ▸ hi
        · exact fun hmem => key.1 x hx (List.mem_cons_of_mem _ hmem)
      · exact List.nodup_cons.mpr
          ⟨fun hmem => key.1 i hmem (List.mem_cons_self _ _), key.2⟩

/-- C7: the Import Resolver's output is sorted ascending and free of
duplicates, for every world, depth bound, input name and import list.
Determinism over a fixed import graph is inherited from the embedding
being a pure function of the world and the inputs. -/
theorem c7_sorted_dedup (w : RiWorld) (fuel : Nat) (path : String) (imports : List String) :
    (resolveImportsRecursive w fuel path imports).Sorted (· ≤ ·) ∧
    (resolveImportsRecursive w fuel path imports).Nodup := by
  constructor
  · exact List.sorted_insertionSort _ _
  · exact (List.perm_insertionSort _ _).nodup_iff.mpr (dedupAux_fresh_nodup _ []).2

/-- C9: for a node with no parent, Install and Checkout both return nil
immediately, record no action, and leave every field of the node exactly
as it was. -/
theorem c9_root_untouched (fuel : Nat) (mw : MWorld) (p : Pkg) (ro : Option Repo) (r : Repo)
    (h : p.f.hasParent = false) :
    Pkg.install fuel mw p ro = (p, none, []) ∧ Pkg.checkout fuel mw p r = (p, none, []) := by
  constructor <;> simp [Pkg.install, Pkg.checkout, h]

/-- Witness for c9_root_untouched on a concrete parentless node. -/
theorem c9_witness :
    Pkg.install 3 mwNone pRoot (some rSat) = (pRoot, none, []) ∧
    Pkg.checkout 3 mwNone pRoot rSat = (pRoot, none, []) :=
  c9_root_untouched 3 mwNone pRoot (some rSat) rSat rfl

/-- C8: re-running Install on a non-root node that is already installed
locally, clean, and whose checkout already satisfies the desired target
(the pinned reference if set, else the version constraint) performs no
fetch and no backend update and leaves the pinned reference unchanged. -/
theorem c8_install_idempotent (fuel : Nat) (mw : MWorld) (p : Pkg) (r : Repo)
    (hp : p.f.hasParent = true) (hl : r.existsLocal = true) (hc : r.dirty = false)
    (hs : r.isRefB (if p.f.reference = "" then p.f.version else p.f.reference) = true) :
    C8Spec fuel mw p r := by
  unfold C8Spec Pkg.install Pkg.checkout
  simp [hp, hl, hc, hs, Repo.checkLocal, Repo.localPath, Repo.isDirty, Repo.isReference,
    Ev.isFetch, Ev.isUpdate]

/-- Witness for c8_install_idempotent on a concrete satisfied node. -/
theorem c8_witness : C8Spec 3 mwNone pSat rSat :=
  c8_install_idempotent 3 mwNone pSat rSat rfl rfl rfl rfl

/-- C10: for a non-root node whose backend resolved, Install's returned
error is exactly the fetch step's result — nil when the local checkout
already existed or the fetch succeeded, the fetch failure otherwise; the
Checkout call that follows never contributes to the return value. -/
theorem c10_install_error_from_fetch (fuel : Nat) (mw : MWorld) (p : Pkg) (r : Repo)
    (hp : p.f.hasParent = true) :
    (Pkg.install fuel mw p (some r)).2.1
      = (if r.checkLocal then none
         else if (r.get).2 then none else some GoErr.fetchFailed) := by
  cases hcl : r.existsLocal with
  | true => simp [Pkg.install, hp, Repo.checkLocal, Repo.get, hcl]
  | false =>
    cases hf : r.fetchOk with
    | true => simp [Pkg.install, hp, Repo.checkLocal, Repo.get, hcl, hf]
    | false => simp [Pkg.install, hp, Repo.checkLocal, Repo.get, hcl, hf]

/-- Witness for c10_install_error_from_fetch on a node whose Checkout
fails (the update is refused) while Install still returns nil. -/
theorem c10_witness :
    (Pkg.install 3 mwNone pUpd (some rUpdFail)).2.1
      = (if rUpdFail.checkLocal then none
         else if (rUpdFail.get).2 then none else some GoErr.fetchFailed) :=
  c10_install_error_from_fetch 3 mwNone pUpd rUpdFail rfl

/-- C1 evaluated at its failing input: on a dirty non-root node whose
target is not yet a reference, Checkout logs the skip warning but — the
source has no return after the warning — still instructs the backend to
update the working copy and overwrites the pinned reference, contradicting
the claim (and the log line). -/
theorem c1_dirty_checkout_proceeds :
    ((Pkg.checkout 3 mwNone pDirty rDirty).2.2).contains Ev.warnDirty = true ∧
    ((Pkg.checkout 3 mwNone pDirty rDirty).2.2).any (fun e => e.isUpdate) = true ∧
    (Pkg.checkout 3 mwNone pDirty rDirty).1.f.reference = "deadbeef" ∧
    pDirty.f.reference = "" := by
  exact ⟨rfl, rfl, rfl, rfl⟩

/-- C2 evaluated at its failing input: for a gopkg.in node with no URL
override and no checkout on disk, the body of RepoURL builds the expected
URL and assigns the trailing version suffix v3 to the version field of
its receiver copy — but RepoURL has a value receiver and returns only the
string, so the caller's node still has an empty version constraint. -/
theorem c2_version_suffix_dropped :
    Pkg.repoURL uwNone pGopkg = "git@github.com:u/pkg.git" ∧
    (Pkg.repoURLBody uwNone pGopkg).2.f.version = "v3" ∧
    pGopkg.f.version = "" := by
  exact ⟨rfl, rfl, rfl⟩

/-- Amended C3: after a failed initial fetch Install logs the failure,
leaves the node unmarked-installed and still runs Checkout, which issues
no backend update and preserves name, constraint, URL and dependencies —
but it is not a no-op on the node: the pinned reference is overwritten
with the failed version query's string result and the manifest flag is
cleared, and the parent re-Init fallback fires. -/
theorem c3_checkout_after_failed_fetch (fuel : Nat) (mw : MWorld) (p : Pkg) (r : Repo)
    (hp : p.f.hasParent = true) (hl : r.existsLocal = false) (hf : r.fetchOk = false)
    (hm : mw.readFile (pathJoin r.lpath
        (if p.f.manifestFile = "" then "vgo.yaml" else p.f.manifestFile)) = none) :
    C3Spec fuel mw p r := by
  by_cases hmf : p.f.manifestFile = ""
  · have hm2 : mw.readFile (pathJoin r.lpath "vgo.yaml") = none := by
      simpa [hmf] using hm
    unfold C3Spec Pkg.install Pkg.checkout Pkg.loadManifest
    simp [hp, hl, hf, hmf, hm2, Repo.checkLocal, Repo.localPath, Repo.get, Repo.isDirty,
      Repo.isReference, Repo.version, Repo.updateVersion, Ev.isUpdate, Ev.isFetch]
  · have hm2 : mw.readFile (pathJoin r.lpath p.f.manifestFile) = none := by
      simpa [hmf] using hm
    unfold C3Spec Pkg.install Pkg.checkout Pkg.loadManifest
    simp [hp, hl, hf, hmf, hm2, Repo.checkLocal, Repo.localPath, Repo.get, Repo.isDirty,
      Repo.isReference, Repo.version, Repo.updateVersion, Ev.isUpdate, Ev.isFetch]

/-- Witness for c3_checkout_after_failed_fetch on a fresh node. -/
theorem c3_witness : C3Spec 3 mwNone pFresh rFetchFail :=
  c3_checkout_after_failed_fetch 3 mwNone pFresh rFetchFail rfl rfl rfl rfl

/-- Counterexample to C3 as stated: for a node whose pinned reference was
already set (for example restored from a manifest), the Checkout that
follows the failed fetch is not a no-op — it erases the pinned
reference. -/
theorem c3_counterexample :
    pPinned.f.reference = "abc" ∧
    (Pkg.install 3 mwNone pPinned (some rFetchFail)).1.f.reference = "" := by
  exact ⟨rfl, rfl⟩

/-- The Init loop body never changes the scalar fields of the node being
initialized; it only appends to the dependencies and the created list. -/
theorem initFold_f (iw : InitWorld) (fuel : Nat) (acc : Pkg × List String) (i : String) :
    (initFold iw fuel acc i).1.f = acc.1.f := by
  unfold initFold
  split
  · rfl
  · split
    · rfl
    · rfl

/-- A name in the created list after one Init loop step either was already
there, or is the current import's repoName and passed the subpackage
filter against the node's own name. -/
theorem initFold_mem (iw : InitWorld) (fuel : Nat) (acc : Pkg × List String) (i : String)
    (x : String) (hx : x ∈ (initFold iw fuel acc i).2) :
    x ∈ acc.2 ∨ goStartsWith x acc.1.f.name = false := by
  unfold initFold at hx
  split at hx
  · exact Or.inl hx
  · rename_i hcond
    split at hx
    · exact Or.inl hx
    · rcases List.mem_append.mp hx with h | h
      · exact Or.inl h
      · have hxname : x = iw.ri.repoName i := by simpa using h
        refine Or.inr ?_
        rw [hxname]
        simpa using hcond

/-- Invariant of the Init loop fold: the node's scalar fields are those of
the start accumulator, and every created name passed the subpackage
filter against the node's name. -/
theorem initFold_foldl (iw : InitWorld) (fuel : Nat) (names : List String) :
    ∀ acc : Pkg × List String,
      ((names.foldl (initFold iw fuel) acc).1.f = acc.1.f) ∧
      ∀ x ∈ (names.foldl (initFold iw fuel) acc).2,
        x ∈ acc.2 ∨ goStartsWith x acc.1.f.name = false := by
  induction names with
  | nil => exact fun acc => ⟨rfl, fun x hx => Or.inl hx⟩
  | cons i rest ih =>
    intro acc
    have hstep := initFold_f iw fuel acc i
    have h1 := ih (initFold iw fuel acc i)
    refine ⟨h1.1.trans hstep, ?_⟩
    intro x hx
    rcases h1.2 x hx with hmem | hpre
    · exact initFold_mem iw fuel acc i x hmem
    · rw [hstep] at hpre
      exact Or.inr hpre

/-- Amended C4: every child that Init itself creates has a name that does
not extend (as a path prefix) the initiating node's own name — in
particular it never equals it — so Init's own insertions cannot introduce
a self- or subpackage-dependency. The full claimed invariant fails on
reachable graphs because dependencies rehydrated from a loaded manifest
bypass this filter (see the counterexample). -/
theorem c4_init_filter (iw : InitWorld) (fuel : Nat) (p : Pkg) (meta : BuildMeta)
    (n : String) (hn : n ∈ (Pkg.rootInit iw fuel p meta).2) :
    goStartsWith n ((Pkg.rootInit iw fuel p meta).1.f.name) = false := by
  unfold Pkg.rootInit at hn ⊢
  have h := initFold_foldl iw fuel
    (resolveImportsRecursive iw.ri fuel ((p.initRename iw meta).f.name) meta.imports)
    ((p.initRename iw meta), [])
  rw [h.1]
  rcases h.2 n hn with hmem | hpre
  · cases hmem
  · exact hpre

/-- Witness for c4_init_filter at the concrete builder scenario. -/
theorem c4_witness :
    goStartsWith "github.com/u/c" ((Pkg.rootInit iwBuild 3 rootBuild metaBuild).1.f.name) = false :=
  c4_init_filter iwBuild 3 rootBuild metaBuild "github.com/u/c" (by decide)

/-- Counterexample to C4 as stated: running the builder from rootBuild in
the iwBuild world fetches the single discovered child, whose checkout
loads the docSub manifest; the rehydrated dependency is a subpackage of
the child itself, so the reachable graph violates the claimed invariant. -/
theorem c4_counterexample :
    Pkg.c4ok 4 [] (Pkg.rootInit iwBuild 3 rootBuild metaBuild).1 = false := by decide

@[simp] theorem marshal_pkg (n : Nat) (p : Pkg) : (p.marshal n).pkg = p.f.name := by
  cases n <;> rfl

@[simp] theorem marshal_ver (n : Nat) (p : Pkg) : (p.marshal n).ver = p.f.version := by
  cases n <;> rfl

@[simp] theorem marshal_ref (n : Nat) (p : Pkg) : (p.marshal n).ref = p.f.reference := by
  cases n <;> rfl

@[simp] theorem marshal_url (n : Nat) (p : Pkg) : (p.marshal n).url = p.f.url := by
  cases n <;> rfl

/-- Patching parent links changes no persisted field anywhere in the
tree, so the persisted-field view is unchanged. -/
theorem dataTree_patchNode :
    ∀ (k j : Nat) (q : Pkg), Pkg.dataTree k (Pkg.patchNode j q) = Pkg.dataTree k q := by
  intro k
  induction k with
  | zero => intro j q; cases j <;> rfl
  | succ k ih =>
    intro j q
    cases j with
    | zero => rfl
    | succ j =>
      simp only [Pkg.patchNode, Pkg.dataTree, Pkg.f_mk, Pkg.deps_mk, List.map_map]
      exact congrArg _ (List.map_congr_left fun d _ => ih j d)

/-- Marshalling a manifest-free subtree at a depth-covering fuel and
rebuilding it reproduces its persisted-field view, for any rebuild and
projection fuels at least the marshal fuel. -/
theorem dataTree_toPkg_marshal :
    ∀ (m : Nat) (p : Pkg), Pkg.depthLe m p = true → Pkg.noOwned m p = true →
      ∀ n k : Nat, m ≤ n → m ≤ k →
        Pkg.dataTree k (MPkg.toPkg n (Pkg.marshal m p)) = Pkg.dataTree k p := by
  intro m
  induction m with
  | zero =>
    intro p hd
    simp [Pkg.depthLe] at hd
  | succ m ih =>
    intro p hd hno n k hn hk
    obtain ⟨n, rfl⟩ : ∃ n', n = n' + 1 := ⟨n - 1, by omega⟩
    obtain ⟨k, rfl⟩ : ∃ k', k = k' + 1 := ⟨k - 1, by omega⟩
    match p with
    | .mk f deps =>
      simp only [Pkg.noOwned, Pkg.f_mk, Pkg.deps_mk, Bool.and_eq_true, Bool.not_eq_true',
        List.all_eq_true] at hno
      simp only [Pkg.depthLe, Pkg.deps_mk, List.all_eq_true] at hd
      simp only [Pkg.marshal, Pkg.f_mk, Pkg.deps_mk, hno.1, Bool.false_and,
        Bool.false_eq_true, if_false, MPkg.toPkg, MPkg.pkg, MPkg.ver, MPkg.ref, MPkg.url,
        MPkg.deps, Pkg.dataTree, List.map_map]
      refine congrArg _ (List.map_congr_left fun d hdm => ?_)
      exact ih d (hd d hdm) (hno.2 d hdm) n k (by omega) (by omega)

/-- Amended C5: for every node whose manifest file name is initialized
(an uninitialized name makes SaveManifest write to the directory path
itself while LoadManifest reads vgo.yaml) and whose depth is within fuel,
SaveManifest followed by LoadManifest succeeds and reproduces name,
version constraint, pinned reference and URL exactly; a non-root node
owning its own manifest is serialized with its dependencies omitted; and
when no node of the tree owns a manifest, the persisted-field view of the
whole dependency subtree is reproduced as well. Subtrees below a
manifest-owning descendant are pruned by the serialization hook and are
not reproduced (see the counterexample). -/
theorem c5_roundtrip (n : Nat) (mw : MWorld) (p : Pkg)
    (hmf : p.f.manifestFile ≠ "") (hd : Pkg.depthLe n p = true) :
    C5Spec n mw p := by
  obtain ⟨m, rfl⟩ : ∃ m, n = m + 1 := by
    cases n with
    | zero => simp [Pkg.depthLe] at hd
    | succ m => exact ⟨m, rfl⟩
  unfold C5Spec
  refine ⟨?_, ?_, ?_, ?_, ?_, ?_, ?_⟩
  · simp [Pkg.saveManifest, Pkg.loadManifest, MWorld.write, hmf]
  · simp [Pkg.saveManifest, Pkg.loadManifest, MWorld.write, hmf, Pkg.unmarshalMerge,
      Pkg.updateDepsParents]
  · simp [Pkg.saveManifest, Pkg.loadManifest, MWorld.write, hmf, Pkg.unmarshalMerge,
      Pkg.updateDepsParents]
  · simp [Pkg.saveManifest, Pkg.loadManifest, MWorld.write, hmf, Pkg.unmarshalMerge,
      Pkg.updateDepsParents]
  · simp [Pkg.saveManifest, Pkg.loadManifest, MWorld.write, hmf, Pkg.unmarshalMerge,
      Pkg.updateDepsParents]
  · intro h1 h2
    simp [Pkg.marshal, h1, h2, MPkg.deps]
  · intro hno
    simp only [Pkg.noOwned, Bool.and_eq_true, Bool.not_eq_true', List.all_eq_true] at hno
    simp only [Pkg.depthLe, List.all_eq_true] at hd
    cases hdeps : p.dependencies with
    | nil =>
      simp [Pkg.saveManifest, Pkg.loadManifest, MWorld.write, hmf, Pkg.unmarshalMerge,
        Pkg.updateDepsParents, Pkg.marshal, hno.1, hdeps, MPkg.deps]
    | cons d ds =>
      rw [hdeps] at hd
      have hall := hno.2
      rw [hdeps] at hall
      simp only [Pkg.saveManifest, Pkg.loadManifest, MWorld.write, Pkg.f_setF, Pkg.deps_setF,
        hmf, if_false, eq_self_iff_true, if_true, Pkg.marshal, hno.1, Bool.false_and,
        Bool.false_eq_true, hdeps, List.map_cons, Pkg.unmarshalMerge, Pkg.updateDepsParents,
        Pkg.f_mk, Pkg.deps_mk, MPkg.deps, List.map_map]
      have key : ∀ x ∈ d :: ds,
          Pkg.dataTree (m + 1) (Pkg.patchNode (m + 1) (MPkg.toPkg (m + 1) (Pkg.marshal m x)))
            = Pkg.dataTree (m + 1) x := by
        intro x hx
        exact (dataTree_patchNode (m + 1) (m + 1) _).trans
          (dataTree_toPkg_marshal m x (hd x hx) (hall x hx) (m + 1) (m + 1)
            (by omega) (by omega))
      refine congrArg₂ List.cons (key d (List.mem_cons_self d ds)) ?_
      refine List.map_congr_left fun x hx => ?_
      simpa [Function.comp] using key x (List.mem_cons_of_mem d hx)

/-- Witness for c5_roundtrip on a concrete manifest-free subtree. -/
theorem c5_witness : C5Spec 3 mwNone pRound :=
  c5_roundtrip 3 mwNone pRound (by decide) (by decide)

/-- Counterexample to C5 as stated: pLost does not own a manifest, yet
save-then-load does not reproduce its full dependency subtree — its child
owns a manifest, so the serialization hook drops the grandchild from the
file and the rehydrated subtree is strictly smaller. -/
theorem c5_counterexample :
    pLost.f.hasManifest = false ∧
    ¬ ((pLost.loadManifest 4 (pLost.saveManifest 4 mwNone).1).1.dependencies.map (Pkg.dataTree 4)
        = pLost.dependencies.map (Pkg.dataTree 4)) := by
  refine ⟨rfl, ?_⟩
  intro h
  have h2 := congrArg (fun l => (l.map (MPkg.nodes 4)).sum) h
  exact absurd h2 (by decide)
